import Mathlib

/-!
Verification development for the BSMarker spectrogram pipeline.

The definitions below are a shallow embedding of the backend code:
  * `app/models/spectrogram.py` (the `Spectrogram` job row and its status enum),
  * `app/tasks/spectrogram_tasks.py` (the Celery worker `generate_spectrogram_task`
    and the renderer `generate_spectrogram_image`),
  * `app/services/spectrogram.py` (the legacy synchronous renderer),
  * `app/services/minio_client.py` (`MinioClient.upload_file` retry loop),
  * `app/services/cache_service.py` (cache keys and invalidation),
  * `app/api/api_v1/endpoints/recordings.py` (upload / delete / bulk-delete
    endpoints and their cache effects),
  * `app/core/celery_app.py` (time-limit configuration).

Machine floats are modelled by `ℚ`; the `numpy`/`librosa` operations that the
claims depend on are modelled entry-wise over `ℚ`, parameterised by the
irrational primitives (`log10`, square root, the DFT kernels) wherever the
result does not depend on their values.  Nullable database columns are
`Option` fields; a raised Python exception is an explicit constructor of the
result type.
-/

namespace BSMarker

/-- Status enum of a spectrogram job row (`SpectrogramStatus` in
`app/models/spectrogram.py`). -/
inductive SpectrogramStatus where
  | pending
  | processing
  | completed
  | failed
deriving DecidableEq, Repr

/-- One row of the `spectrograms` table (`Spectrogram` in
`app/models/spectrogram.py`).  Nullable columns are `Option`; the JSON
`parameters` column is modelled by the structured `SpecParams` record. -/
structure SpecParams where
  nFft : ℕ
  hopLength : ℕ
  sampleRate : ℕ
  maxFrequency : ℕ
  duration : ℚ
deriving DecidableEq, Repr

structure SpectrogramRec where
  recordingId : ℕ
  status : SpectrogramStatus
  errorMessage : Option String
  processingTime : Option ℚ
  thumbnailPath : Option String
  standardPath : Option String
  fullPath : Option String
  imagePath : Option String
  parameters : Option SpecParams
  width : Option ℤ
  height : Option ℤ
deriving DecidableEq, Repr

/-- One row of the `recordings` table, restricted to the fields the worker
reads (`Recording` in `app/models/recording.py`). -/
structure RecordingRow where
  id : ℕ
  filename : String
  filePath : String
  projectId : ℕ
deriving DecidableEq, Repr

/-- Celery hard time limit: `task_time_limit=300` in `app/core/celery_app.py`. -/
def task_time_limit : ℕ := 300

/-- Celery soft time limit: `task_soft_time_limit=240` in
`app/core/celery_app.py`. -/
def task_soft_time_limit : ℕ := 240

/-- Python `int()` on a nonnegative/negative rational: truncation toward zero. -/
def pyInt (q : ℚ) : ℤ := if 0 ≤ q then ⌊q⌋ else ⌈q⌉

/-- Thumbnail width: `min(800, int(duration * 50))`
(`generate_spectrogram_task`, line 172). -/
def thumbnailWidth (duration : ℚ) : ℤ := min 800 (pyInt (duration * 50))

/-- Standard-resolution width: `min(1600, max(800, int(duration * 200)))`
(`generate_spectrogram_task`, line 190; `base_width_per_second = 200`). -/
def standardWidth (duration : ℚ) : ℤ := min 1600 (max 800 (pyInt (duration * 200)))

/-- Full-resolution width: `min(6400, max(1600, int(duration * 200 * 2)))`
(`generate_spectrogram_task`, line 208). -/
def fullWidth (duration : ℚ) : ℤ := min 6400 (max 1600 (pyInt (duration * 200 * 2)))

/-- Width of the legacy synchronous renderer:
`min(max(int(duration * 200), 800), 3200)` (`app/services/spectrogram.py`,
lines 76-77). -/
def serviceWidth (duration : ℚ) : ℤ := min (max (pyInt (duration * 200)) 800) 3200

/-- Object key `f"spectrograms/{recording_id}/thumbnail.png"`. -/
def thumbnailPathFor (rid : ℕ) : String :=
  "spectrograms/" ++ toString rid ++ "/thumbnail.png"

/-- Object key `f"spectrograms/{recording_id}/standard.png"`. -/
def standardPathFor (rid : ℕ) : String :=
  "spectrograms/" ++ toString rid ++ "/standard.png"

/-- Object key `f"spectrograms/{recording_id}/full.png"`. -/
def fullPathFor (rid : ℕ) : String :=
  "spectrograms/" ++ toString rid ++ "/full.png"

/-- Python `str(e)[:500]` (`generate_spectrogram_task`, line 277): the error
text truncated to at most 500 characters. -/
def truncate500 (s : String) : String := String.mk (s.data.take 500)

/-- Stages of the worker pipeline that run after the job row has been bound
and committed as PROCESSING (the `update_state` stages of
`generate_spectrogram_task`). -/
inductive PipelineStage where
  | downloadingAudio
  | loadingAudio
  | generatingThumbnail
  | generatingStandard
  | generatingFull
  | updatingDatabase
deriving DecidableEq, Repr

/-- Outcome of one pipeline execution, abstracting the external collaborators
(MinIO, librosa, PIL): either every stage succeeds and the audio decodes to
`yLen` samples at rate `sr` (the wall-clock time spent being `procTime`), or
some stage raises an ordinary exception with message `msg`, or the Celery
soft time limit fires at some stage (`SoftTimeLimitExceeded`). -/
inductive PipelineOutcome where
  | ok (yLen : ℕ) (sr : ℕ) (procTime : ℚ)
  | raisesAt (stage : PipelineStage) (msg : String)
  | softTimeoutAt (stage : PipelineStage)
deriving DecidableEq, Repr

/-- Value returned by (or exception escaping from) one run of
`generate_spectrogram_task`. -/
inductive TaskResult where
  | alreadyExists (thumbnail standard full : Option String)
  | success (thumbnail standard full : String) (processingTime : ℚ)
  | raisedNotFound (rid : ℕ)
  | raisedError (msg : String)
  | raisedTimeout
deriving DecidableEq, Repr

/-- Observable effect of one task run on the job row: `commits` lists the
states of the row at each `db.commit()` in order, `final` is the row after the
run (equal to the input row when the run never writes), and `result` is the
returned value or escaped exception. -/
structure TaskRun where
  commits : List SpectrogramRec
  final : Option SpectrogramRec
  result : TaskResult
deriving DecidableEq, Repr

/-- Binding of the local variable `spectrogram` (`generate_spectrogram_task`,
lines 132-145): a fresh row with status PROCESSING when none exists, otherwise
the existing row reset to PROCESSING with `error_message` cleared. -/
def bindJob (rid : ℕ) (existing : Option SpectrogramRec) : SpectrogramRec :=
  match existing with
  | none =>
      { recordingId := rid
        status := .processing
        errorMessage := none
        processingTime := none
        thumbnailPath := none
        standardPath := none
        fullPath := none
        imagePath := none
        parameters := none
        width := none
        height := none }
  | some e =>
      { e with
        status := .processing
        errorMessage := none }

/-- Body of `generate_spectrogram_task` after the PROCESSING commit, together
with the `except SoftTimeLimitExceeded` / `except Exception` handlers (lines
147-279).  On success the COMPLETED row is committed with the three artifact
paths, `image_path = standard_path`, `width = standard_width`, `height = 400`,
the processing time and the parameters snapshot.  On an exception or a soft
timeout the handler (with `spectrogram` bound) commits status FAILED with the
truncated message resp. the reserved `"Task timeout"` message, and re-raises. -/
def runPipeline (rid : ℕ) (bound : SpectrogramRec) (outcome : PipelineOutcome) :
    TaskRun :=
  match outcome with
  | .ok yLen sr procTime =>
      let duration : ℚ := (yLen : ℚ) / (sr : ℚ)
      let tPath := thumbnailPathFor rid
      let sPath := standardPathFor rid
      let fPath := fullPathFor rid
      let done : SpectrogramRec :=
        { bound with
          status := .completed
          thumbnailPath := some tPath
          standardPath := some sPath
          fullPath := some fPath
          imagePath := some sPath
          width := some (standardWidth duration)
          height := some 400
          processingTime := some procTime
          parameters := some
            { nFft := 2048
              hopLength := 512
              sampleRate := sr
              maxFrequency := 10000
              duration := duration } }
      { commits := [bound, done]
        final := some done
        result := .success tPath sPath fPath procTime }
  | .raisesAt _ msg =>
      let failedRec :=
        { bound with
          status := .failed
          errorMessage := some (truncate500 msg) }
      { commits := [bound, failedRec]
        final := some failedRec
        result := .raisedError msg }
  | .softTimeoutAt _ =>
      let failedRec :=
        { bound with
          status := .failed
          errorMessage := some "Task timeout" }
      { commits := [bound, failedRec]
        final := some failedRec
        result := .raisedTimeout }

/-- Shallow embedding of `generate_spectrogram_task(recording_id)`
(`app/tasks/spectrogram_tasks.py`, lines 92-282).  `recording` is the result
of the `Recording` lookup and `existing` the current job row for the
recording.  When the recording is missing, `ValueError` is raised before the
local `spectrogram` is bound, so the `except` handlers find
`'spectrogram' not in locals()` and re-raise without touching the row.  When
the existing job is COMPLETED the task short-circuits, returning the stored
paths without writing.  Otherwise the row is bound/reset, committed as
PROCESSING, and the pipeline runs. -/
def generate_spectrogram_task (recording : Option RecordingRow)
    (existing : Option SpectrogramRec) (outcome : PipelineOutcome) (rid : ℕ) :
    TaskRun :=
  match recording with
  | none =>
      { commits := []
        final := existing
        result := .raisedNotFound rid }
  | some _ =>
      match existing with
      | some e =>
          if e.status = .completed then
            { commits := []
              final := some e
              result := .alreadyExists e.thumbnailPath e.standardPath e.fullPath }
          else runPipeline rid (bindJob rid (some e)) outcome
      | none => runPipeline rid (bindJob rid none) outcome

/-- Job rows reachable through the worker: initially no row exists for a
recording (`generate_spectrogram_task` is the only live writer of
`spectrograms` rows), and each task delivery maps the row through
`generate_spectrogram_task` with an arbitrary recording-lookup result and
pipeline outcome. -/
inductive ReachableJob : Option SpectrogramRec → Prop where
  | init : ReachableJob none
  | step (recording : Option RecordingRow) (outcome : PipelineOutcome) (rid : ℕ)
      (j : Option SpectrogramRec) (h : ReachableJob j) :
      ReachableJob (generate_spectrogram_task recording j outcome rid).final

/-- State invariant of claim C1, read off the spec: the artifact path
(`image_path`, the column served and reported by the endpoints) and the
`width`/`height` columns are non-null exactly in status COMPLETED, and
`error_message` is non-null exactly in status FAILED. -/
def jobInvariant (s : SpectrogramRec) : Prop :=
  (s.status = .completed ↔ s.imagePath ≠ none) ∧
  (s.status = .completed ↔ s.width ≠ none) ∧
  (s.status = .completed ↔ s.height ≠ none) ∧
  (s.status = .failed ↔ s.errorMessage ≠ none)

instance (s : SpectrogramRec) : Decidable (jobInvariant s) := by
  unfold jobInvariant; infer_instance

/-- Strengthened inductive invariant: the claim C1 invariant together with the
shape of the dimension columns of a COMPLETED row (used for claim C9). -/
def strongInv (s : SpectrogramRec) : Prop :=
  jobInvariant s ∧
  (s.status = .completed →
    (∃ w : ℤ, s.width = some w ∧ 800 ≤ w ∧ w ≤ 3200) ∧ s.height = some 400)

/-- Shape of the job row right after the PROCESSING commit. -/
def processingShape (s : SpectrogramRec) : Prop :=
  s.status = .processing ∧ s.errorMessage = none ∧ s.imagePath = none ∧
  s.width = none ∧ s.height = none

/-- Fixed sample recording row used by the witnesses. -/
def recordingSeven : RecordingRow :=
  { id := 7, filename := "a.wav", filePath := "project_1/a.wav", projectId := 1 }

/-- Value of the k-th FFT bin center frequency, `k * sr / n_fft`
(`librosa.fft_frequencies` returns these for `k = 0 .. n_fft/2`). -/
def fftFreqVal (sr nFft k : ℕ) : ℚ := (k * sr : ℚ) / (nFft : ℚ)

/-- Embedding of `librosa.fft_frequencies(sr=sr, n_fft=n_fft)`. -/
def fftFrequencies (sr nFft : ℕ) : List ℚ :=
  (List.range (nFft / 2 + 1)).map (fftFreqVal sr nFft)

/-- Embedding of `np.where(np.array(xs) <= cutoff)[0][-1]`: the last index
whose value is at most the cutoff; `none` models the IndexError raised by
`[-1]` on an empty match. -/
def lastIdxLe (xs : List ℚ) (cutoff : ℚ) : Option ℕ :=
  ((xs.enum.filter (fun p => p.2 ≤ cutoff)).map Prod.fst).getLast?

/-- The `max_freq_idx` computed by `generate_spectrogram_image`
(`app/tasks/spectrogram_tasks.py`, lines 62-63) and by the legacy
`generate_spectrogram` (`app/services/spectrogram.py`, lines 50-52): both
revisions hard-code the cutoff 10000 Hz; no `maxFrequency` parameter exists. -/
def maxFreqIdx (sr nFft : ℕ) : Option ℕ :=
  lastIdxLe (fftFrequencies sr nFft) 10000

/-- Row clamp `S_db_limited = S_db[:max_freq_idx, :]`: the rows kept by the
frequency clamp are exactly those with index strictly below `max_freq_idx`. -/
def clampRows {α : Type} (S : List α) (sr nFft : ℕ) : Option (List α) :=
  (maxFreqIdx sr nFft).map (fun i => S.take i)

/-- Bin center frequencies of the rows the clamped matrix retains. -/
def retainedFrequencies (sr nFft : ℕ) : Option (List ℚ) :=
  clampRows (fftFrequencies sr nFft) sr nFft

/-- Recursive form of the last-satisfying-index search, used to reason about
`lastIdxLe`. -/
def lastSat (p : ℚ → Bool) : List ℚ → Option ℕ
  | [] => none
  | x :: xs =>
      ((lastSat p xs).map (· + 1)).or (if p x then some 0 else none)

/-- Matrices over ℚ (row-major), modelling the numpy arrays of the renderer. -/
abbrev Mat := List (List ℚ)

/-- Constant matrix (`rows × cols`, every entry `q`). -/
def constMat (q : ℚ) (rows cols : ℕ) : Mat :=
  List.replicate rows (List.replicate cols q)

def matMap (f : ℚ → ℚ) (M : Mat) : Mat := M.map (List.map f)

/-- Model of `np.max` over all entries (`0` stands for the empty matrix,
which numpy rejects; the renderer's matrices are nonempty). -/
def matMax (M : Mat) : ℚ := M.flatten.foldl max (M.flatten.headD 0)

/-- Model of `np.min` over all entries. -/
def matMin (M : Mat) : ℚ := M.flatten.foldl min (M.flatten.headD 0)

/-- The `amin` floor of `librosa.amplitude_to_db` (`amin=1e-5`). -/
def aminAmp : ℚ := 1 / 100000

/-- Entry-wise magnitudes `np.abs(D)`. -/
def magMat (M : Mat) : Mat := matMap (fun x => |x|) M

/-- Decibel conversion of `librosa.amplitude_to_db(S, ref=np.max)` before the
`top_db` clip, parameterised by the (irrational) base-10 logarithm:
magnitudes floored at `amin` and referenced to the floored global maximum. -/
def dbSpec (log10 : ℚ → ℚ) (M : Mat) : Mat :=
  matMap
    (fun x => 20 * log10 (max aminAmp x) -
      20 * log10 (max aminAmp (matMax (magMat M))))
    (magMat M)

/-- Entry-wise model of `librosa.amplitude_to_db(S, ref=np.max)` over ℚ:
the decibel conversion followed by the `top_db = 80` clip under the peak. -/
def ampToDb (log10 : ℚ → ℚ) (M : Mat) : Mat :=
  matMap (fun x => max x (matMax (dbSpec log10 M) - 80)) (dbSpec log10 M)

/-- Model of the STFT magnitude matrix `np.abs(librosa.stft(y, ...))`: entry
`(f, t)` is the magnitude of the windowed inner product of the signal with
the f-th DFT kernel.  The window/kernel values and the square root are
abstract parameters; what matters is that every entry is a bilinear sum over
signal samples. -/
def stftMag (msqrt : ℚ → ℚ) (kernelRe kernelIm : ℕ → ℕ → ℚ)
    (nFft hopLength rows cols : ℕ) (y : ℕ → ℚ) : Mat :=
  (List.range rows).map (fun f =>
    (List.range cols).map (fun t =>
      msqrt ((∑ n ∈ Finset.range nFft, y (t * hopLength + n) * kernelRe f n) ^ 2 +
        (∑ n ∈ Finset.range nFft, y (t * hopLength + n) * kernelIm f n) ^ 2)))

/-- The shift `S_db_norm = S_db_limited - S_db_limited.min()`. -/
def shiftedMat (M : Mat) : Mat := matMap (fun x => x - matMin M) M

/-- Min-max normalisation of `generate_spectrogram_image`
(`app/tasks/spectrogram_tasks.py`, lines 66-71): subtract the global minimum,
then divide by the maximum only when it is positive
(`if S_db_norm.max() > 0`), otherwise keep the degenerate matrix unscaled. -/
def normalize255 (M : Mat) : Mat :=
  if 0 < matMax (shiftedMat M) then
    matMap (fun x => x / matMax (shiftedMat M) * 255) (shiftedMat M)
  else shiftedMat M

/-- Min-max normalisation of the legacy `generate_spectrogram`
(`app/services/spectrogram.py`, lines 57-58): the division by
`S_db_norm.max()` is unguarded there; `none` models the NaN matrix numpy
produces when the maximum is zero (0/0). -/
def normalize255Service (M : Mat) : Option Mat :=
  if matMax (shiftedMat M) = 0 then none
  else some (matMap (fun x => x / matMax (shiftedMat M) * 255) (shiftedMat M))

/-- Outcome of one attempt inside `MinioClient.upload_file` (the bucket check
plus `put_object`): success, a transient connection failure (`MaxRetryError`
or `ResponseError`), an `S3Error` (authentication, malformed request, ...),
or any other exception. -/
inductive AttemptOutcome where
  | success
  | connectionError (msg : String)
  | s3Error (msg : String)
  | otherError (msg : String)
deriving DecidableEq, Repr

/-- How one `upload_file` call terminates. -/
inductive PutOutcome where
  | ok
  | raisedConnectionError (msg : String)
  | raisedS3Error (msg : String)
  | raisedOtherError (msg : String)
  | noneReturned
deriving DecidableEq, Repr

/-- Observable trace of one `upload_file` call: how many loop iterations ran,
the `time.sleep` durations in order, how many times the MinIO client object
was recreated, and the terminal outcome. -/
structure PutTrace where
  attempts : ℕ
  sleeps : List ℕ
  reconnects : ℕ
  outcome : PutOutcome
deriving DecidableEq, Repr

/-- The retry loop of `MinioClient.upload_file`
(`app/services/minio_client.py`, lines 32-71): at each attempt, a transient
connection error sleeps `2 ** attempt` seconds, recreates the client and
retries unless this was the last allowed attempt (in which case it re-raises);
`S3Error` and any other exception are re-raised immediately; success returns
at once.  `remaining = max_retries - attempt`; a loop that runs out of range
without entering the body returns `None` (`noneReturned`). -/
def uploadFileGo (outcomes : ℕ → AttemptOutcome) : (attempt remaining : ℕ) → PutTrace
  | _, 0 => ⟨0, [], 0, .noneReturned⟩
  | attempt, r + 1 =>
      match outcomes attempt with
      | .success => ⟨1, [], 0, .ok⟩
      | .s3Error m => ⟨1, [], 0, .raisedS3Error m⟩
      | .otherError m => ⟨1, [], 0, .raisedOtherError m⟩
      | .connectionError m =>
          if r = 0 then ⟨1, [], 0, .raisedConnectionError m⟩
          else
            let rest := uploadFileGo outcomes (attempt + 1) r
            ⟨rest.attempts + 1, 2 ^ attempt :: rest.sleeps,
              rest.reconnects + 1, rest.outcome⟩

/-- `MinioClient.upload_file` with its default `max_retries = 3`. -/
def upload_file (outcomes : ℕ → AttemptOutcome) : PutTrace :=
  uploadFileGo outcomes 0 3

/-- Query shape of a paginated recordings listing
(`CacheService.get_project_recordings` parameters). -/
structure ListingQuery where
  projectId : ℕ
  skip : ℕ
  limit : ℕ
  search : Option String
  minDuration : Option ℚ
  maxDuration : Option ℚ
  annotationStatus : Option String
  sortBy : String
  sortOrder : String
deriving DecidableEq, Repr

/-- Cache key built by `CacheService._generate_cache_key`
(`app/services/cache_service.py`, lines 62-80):
`"bsmarker:cache:" + prefix + ":" + key_hash` where `key_hash` is the first
16 hex characters of the MD5 of the JSON dump of the sorted kwargs.  The MD5
digest is an abstract parameter; the point is that `project_id` is folded
into the hashed parameter string and never appears in the visible key text. -/
def generate_cache_key (md5hex : String → String) (pfx paramStr : String) :
    String :=
  ("bsmarker:cache:" ++ pfx ++ ":") ++ String.mk ((md5hex paramStr).data.take 16)

/-- Key of a recordings listing page (`get/set_project_recordings`): the
query — project id included — is serialised and hashed. -/
def recordingsListingKey (md5hex : String → String)
    (serialize : ListingQuery → String) (q : ListingQuery) : String :=
  generate_cache_key md5hex "recordings" (serialize q)

/-- Key of the per-recording detail cache
(`f"bsmarker:cache:recording:{recording_id}"`). -/
def recordingDetailKey (rid : ℕ) : String :=
  "bsmarker:cache:recording:" ++ toString rid

/-- The Redis keyspace, modelled as an association list. -/
abbrev Cache := List (String × String)

def cacheLookup (c : Cache) (k : String) : Option String :=
  (c.find? (fun kv => kv.1 = k)).map Prod.snd

/-- `CacheService.delete_pattern` for a trailing-star pattern: Redis
`KEYS pat*` followed by `DELETE` removes every key that starts with `pat`. -/
def delete_pattern (c : Cache) (pat : String) : Cache :=
  c.filter (fun kv => ¬ pat.data <+: kv.1.data)

/-- `CacheService.invalidate_project_recordings`
(`app/services/cache_service.py`, lines 256-266): despite the `project_id`
argument, the deleted pattern is the constant
`"bsmarker:cache:recordings:*"` (the id only lands inside the opaque hash, so
no narrower pattern is possible). -/
def invalidate_project_recordings (projectId : ℕ) (c : Cache) : Cache :=
  delete_pattern c "bsmarker:cache:recordings:"

/-- `CacheService.invalidate_recording` (lines 301-309): deletes the one
detail key of the recording. -/
def invalidate_recording (rid : ℕ) (c : Cache) : Cache :=
  c.filter (fun kv => ¬ kv.1 = recordingDetailKey rid)

/-- Relational state visible to the recording endpoints. -/
structure Db where
  recordings : List RecordingRow
deriving DecidableEq, Repr

structure AppState where
  db : Db
  cache : Cache
deriving DecidableEq, Repr

/-- Db/cache effect of `upload_recording`
(`app/api/api_v1/endpoints/recordings.py`, lines 85-212): the new row is
committed, the spectrogram task enqueued (not modelled here), and
`invalidate_project_recordings(project_id)` is called.  No recording-detail
key exists for a fresh row. -/
def upload_recording (st : AppState) (projectId : ℕ) (row : RecordingRow) :
    AppState :=
  { db := { recordings := st.db.recordings ++ [row] }
    cache := invalidate_project_recordings projectId st.cache }

/-- Db/cache effect of `delete_recording` (lines 375-402): the row is deleted
and both `invalidate_project_recordings(project.id)` and
`invalidate_recording(recording_id)` are called. -/
def delete_recording (st : AppState) (rid projectId : ℕ) : AppState :=
  { db := { recordings := st.db.recordings.filter (fun r => ¬ r.id = rid) }
    cache := invalidate_recording rid
      (invalidate_project_recordings projectId st.cache) }

/-- Db/cache effect of `bulk_delete_recordings` (lines 405-440): every
matching row of the project is deleted and committed; the function body
contains no cache call whatsoever, so the cache is returned unchanged. -/
def bulk_delete_recordings (st : AppState) (projectId : ℕ)
    (recordingIds : List ℕ) : AppState :=
  { db :=
      { recordings :=
          st.db.recordings.filter
            (fun r => ¬ (r.id ∈ recordingIds ∧ r.projectId = projectId)) }
    cache := st.cache }

/-- Cache effect of the COMPLETED commit of `generate_spectrogram_task`
(`app/tasks/spectrogram_tasks.py`, lines 224-263): the task module never
references the cache service and performs no invalidation. -/
def task_completion_cache (c : Cache) : Cache := c

/-- Concrete recording row, cache content and application state used by the
C7 counterexample: one recording in project 1, a cached listing page and a
cached detail entry. -/
def recordingFive : RecordingRow :=
  { id := 5
    filename := "a.wav"
    filePath := "project_1/a.wav"
    projectId := 1 }

def staleCache : Cache :=
  [("bsmarker:cache:recordings:0123456789abcdef", "stale page"),
    ("bsmarker:cache:recording:5", "stale detail")]

def staleState : AppState :=
  { db := { recordings := [recordingFive] }
    cache := staleCache }

theorem processingShape_strongInv {s : SpectrogramRec} (h : processingShape s) :
    strongInv s := by
  obtain ⟨h1, h2, h3, h4, h5⟩ := h
  refine ⟨⟨?_, ?_, ?_, ?_⟩, ?_⟩ <;> simp [h1, h2, h3, h4, h5]

theorem bindJob_processingShape (rid : ℕ) (existing : Option SpectrogramRec)
    (h : ∀ e, existing = some e → strongInv e ∧ e.status ≠ .completed) :
    processingShape (bindJob rid existing) := by
  cases existing with
  | none => simp [bindJob, processingShape]
  | some e =>
      obtain ⟨⟨hi1, hi2, hi3, _⟩, _⟩ := (h e rfl).1
      have hnc := (h e rfl).2
      refine ⟨rfl, rfl, ?_, ?_, ?_⟩
      · simpa [bindJob] using not_not.mp (fun hne => hnc (hi1.mpr hne))
      · simpa [bindJob] using not_not.mp (fun hne => hnc (hi2.mpr hne))
      · simpa [bindJob] using not_not.mp (fun hne => hnc (hi3.mpr hne))

theorem standardWidth_bounds (d : ℚ) :
    800 ≤ standardWidth d ∧ standardWidth d ≤ 3200 := by
  unfold standardWidth
  constructor
  · exact le_min (by norm_num) (le_max_left _ _)
  · exact le_trans (min_le_left _ _) (by norm_num)

theorem serviceWidth_bounds (d : ℚ) :
    800 ≤ serviceWidth d ∧ serviceWidth d ≤ 3200 := by
  unfold serviceWidth
  constructor
  · exact le_min (le_max_right _ _) (by norm_num)
  · exact min_le_right _ _

theorem runPipeline_strongInv (rid : ℕ) (bound : SpectrogramRec)
    (outcome : PipelineOutcome) (h : processingShape bound) :
    (∀ s ∈ (runPipeline rid bound outcome).commits, strongInv s) ∧
    (∀ s, (runPipeline rid bound outcome).final = some s → strongInv s) := by
  obtain ⟨h1, h2, h3, h4, h5⟩ := h
  have hb := processingShape_strongInv ⟨h1, h2, h3, h4, h5⟩
  cases outcome with
  | ok yLen sr procTime =>
      have hw := standardWidth_bounds ((yLen : ℚ) / (sr : ℚ))
      constructor
      · intro s hs
        simp [runPipeline] at hs
        rcases hs with hs | hs
        · exact hs ▸ hb
        · subst hs
          exact ⟨⟨by simp, by simp, by simp, by simp [h1, h2]⟩,
            fun _ => ⟨⟨_, rfl, hw.1, hw.2⟩, rfl⟩⟩
      · intro s hs
        simp [runPipeline] at hs
        subst hs
        exact ⟨⟨by simp, by simp, by simp, by simp [h1, h2]⟩,
          fun _ => ⟨⟨_, rfl, hw.1, hw.2⟩, rfl⟩⟩
  | raisesAt stage msg =>
      constructor
      · intro s hs
        simp [runPipeline] at hs
        rcases hs with hs | hs
        · exact hs ▸ hb
        · subst hs
          exact ⟨⟨by simp [h3], by simp [h4], by simp [h5], by simp⟩,
            fun hc => by simp at hc⟩
      · intro s hs
        simp [runPipeline] at hs
        subst hs
        exact ⟨⟨by simp [h3], by simp [h4], by simp [h5], by simp⟩,
          fun hc => by simp at hc⟩
  | softTimeoutAt stage =>
      constructor
      · intro s hs
        simp [runPipeline] at hs
        rcases hs with hs | hs
        · exact hs ▸ hb
        · subst hs
          exact ⟨⟨by simp [h3], by simp [h4], by simp [h5], by simp⟩,
            fun hc => by simp at hc⟩
      · intro s hs
        simp [runPipeline] at hs
        subst hs
        exact ⟨⟨by simp [h3], by simp [h4], by simp [h5], by simp⟩,
          fun hc => by simp at hc⟩

theorem task_preserves_strongInv (recording : Option RecordingRow)
    (existing : Option SpectrogramRec) (outcome : PipelineOutcome) (rid : ℕ)
    (h : ∀ e, existing = some e → strongInv e) :
    (∀ s ∈ (generate_spectrogram_task recording existing outcome rid).commits,
      strongInv s) ∧
    (∀ s, (generate_spectrogram_task recording existing outcome rid).final = some s →
      strongInv s) := by
  cases recording with
  | none =>
      constructor
      · intro s hs; simp [generate_spectrogram_task] at hs
      · intro s hs
        simp [generate_spectrogram_task] at hs
        exact h s hs
  | some r =>
      cases existing with
      | none =>
          have hps := bindJob_processingShape rid none (by intro e he; cases he)
          have := runPipeline_strongInv rid (bindJob rid none) outcome hps
          simpa [generate_spectrogram_task] using this
      | some e =>
          by_cases hc : e.status = .completed
          · constructor
            · intro s hs; simp [generate_spectrogram_task, hc] at hs
            · intro s hs
              simp [generate_spectrogram_task, hc] at hs
              exact hs ▸ h e rfl
          · have hps := bindJob_processingShape rid (some e)
              (by intro x hx; cases hx; exact ⟨h _ rfl, hc⟩)
            have := runPipeline_strongInv rid (bindJob rid (some e)) outcome hps
            simpa [generate_spectrogram_task, hc] using this

theorem reachable_strongInv {j : Option SpectrogramRec} (h : ReachableJob j) :
    ∀ s, j = some s → strongInv s := by
  induction h with
  | init => intro s hs; cases hs
  | step recording outcome rid j _ ih =>
      exact (task_preserves_strongInv recording j outcome rid ih).2

/-- Claim C1: for every spectrogram job record, at every point after a
transition completes — i.e. for every reachable job row and for every state
committed by a further task delivery — the artifact path and the width/height
columns are non-null iff the status is COMPLETED, and `error_message` is
non-null iff the status is FAILED. -/
theorem job_state_invariant_reachable :
    ∀ j, ReachableJob j →
      (∀ s, j = some s → jobInvariant s) ∧
      ∀ recording outcome rid s,
        s ∈ (generate_spectrogram_task recording j outcome rid).commits →
          jobInvariant s := by
  intro j h
  constructor
  · intro s hs
    exact (reachable_strongInv h s hs).1
  · intro recording outcome rid s hs
    exact ((task_preserves_strongInv recording j outcome rid
      (reachable_strongInv h)).1 s hs).1

/-- Witness for C1: the job row left behind by a failed run out of the initial
(no-row) state satisfies the invariant. -/
theorem job_state_invariant_witness :
    ∃ s, (generate_spectrogram_task (some recordingSeven) none
        (.raisesAt .downloadingAudio "boom") 7).final = some s ∧ jobInvariant s := by
  refine ⟨_, rfl, ?_⟩
  exact (job_state_invariant_reachable _
    (ReachableJob.step (some recordingSeven) (.raisesAt .downloadingAudio "boom") 7
      none ReachableJob.init)).1 _ rfl

/-- Claim C2: re-delivering/re-enqueueing a recording whose job row is already
COMPLETED is idempotent: the worker consults the job record first and returns
the stored artifact references without committing anything and without any
state change, whatever the pipeline outcome would have been. -/
theorem completed_job_rerun_idempotent (r : RecordingRow) (e : SpectrogramRec)
    (outcome : PipelineOutcome) (rid : ℕ) (h : e.status = .completed) :
    generate_spectrogram_task (some r) (some e) outcome rid =
      { commits := []
        final := some e
        result := .alreadyExists e.thumbnailPath e.standardPath e.fullPath } := by
  simp [generate_spectrogram_task, h]

/-- Witness for C2 at a concrete COMPLETED row. -/
theorem completed_job_rerun_idempotent_witness :
    generate_spectrogram_task (some recordingSeven)
      (some { recordingId := 7
              status := .completed
              errorMessage := none
              processingTime := some 3
              thumbnailPath := some (thumbnailPathFor 7)
              standardPath := some (standardPathFor 7)
              fullPath := some (fullPathFor 7)
              imagePath := some (standardPathFor 7)
              parameters := none
              width := some 800
              height := some 400 })
      (.ok 88200 44100 5) 7 =
      { commits := []
        final := some { recordingId := 7
                        status := .completed
                        errorMessage := none
                        processingTime := some 3
                        thumbnailPath := some (thumbnailPathFor 7)
                        standardPath := some (standardPathFor 7)
                        fullPath := some (fullPathFor 7)
                        imagePath := some (standardPathFor 7)
                        parameters := none
                        width := some 800
                        height := some 400 }
        result := .alreadyExists (some (thumbnailPathFor 7))
          (some (standardPathFor 7)) (some (fullPathFor 7)) } :=
  completed_job_rerun_idempotent recordingSeven _ (.ok 88200 44100 5) 7 rfl

/-- Claim C4: whenever the pipeline of a non-short-circuited job hits the
Celery soft time limit (`SoftTimeLimitExceeded`, at any stage), the handler
commits the job row as FAILED with the reserved message `"Task timeout"`; the
soft limit (240 s) is strictly below the hard limit (300 s), so the write
happens before the worker is killed and the row never stays PROCESSING. -/
theorem soft_timeout_transitions_to_failed (r : RecordingRow)
    (existing : Option SpectrogramRec) (stage : PipelineStage) (rid : ℕ)
    (h : ∀ e, existing = some e → e.status ≠ .completed) :
    (∃ s, (generate_spectrogram_task (some r) existing (.softTimeoutAt stage)
        rid).final = some s ∧
      s.status = .failed ∧ s.errorMessage = some "Task timeout") ∧
    task_soft_time_limit < task_time_limit := by
  refine ⟨?_, by norm_num [task_soft_time_limit, task_time_limit]⟩
  cases existing with
  | none => exact ⟨_, rfl, rfl, rfl⟩
  | some e =>
      have hne := h e rfl
      have hfi : generate_spectrogram_task (some r) (some e) (.softTimeoutAt stage) rid
          = runPipeline rid (bindJob rid (some e)) (.softTimeoutAt stage) := by
        simp [generate_spectrogram_task, hne]
      rw [hfi]
      exact ⟨_, rfl, rfl, rfl⟩

/-- Witness for C4: a soft timeout at the rendering stage out of the initial
state ends FAILED with the reserved message. -/
theorem soft_timeout_transitions_to_failed_witness :
    (∃ s, (generate_spectrogram_task (some recordingSeven) none
        (.softTimeoutAt .generatingStandard) 7).final = some s ∧
      s.status = .failed ∧ s.errorMessage = some "Task timeout") ∧
    task_soft_time_limit < task_time_limit :=
  soft_timeout_transitions_to_failed recordingSeven none .generatingStandard 7
    (by intro e he; cases he)

/-- Counterexample for C5: a worker run for a deleted recording (the
`Recording` lookup returns nothing, a fully reachable situation because the
job message outlives a recording deletion) raises an unhandled `ValueError`
inside the task body, yet the handler — guarded by
`if 'spectrogram' in locals()` — persists nothing: no commit happens, no row
is set to FAILED and no error message is stored, contradicting the claim that
every unhandled error is persisted. -/
theorem error_before_binding_not_persisted :
    (generate_spectrogram_task none none (.ok 88200 44100 5) 77).result =
      .raisedNotFound 77 ∧
    (generate_spectrogram_task none none (.ok 88200 44100 5) 77).commits = [] ∧
    (generate_spectrogram_task none none (.ok 88200 44100 5) 77).final = none ∧
    ¬ ∃ s, (generate_spectrogram_task none none (.ok 88200 44100 5) 77).final
        = some s ∧ s.status = .failed := by
  refine ⟨rfl, rfl, rfl, ?_⟩
  rintro ⟨s, hs, -⟩
  exact Option.noConfusion hs

/-- Claim C5 as amended: for every unhandled error raised inside the task body
after the job row has been bound (the recording exists and the job was not
short-circuited as COMPLETED), the handler persists the message truncated to
at most 500 characters, sets the status to FAILED, and re-raises the same
error for the queue to observe. -/
theorem unhandled_error_persisted_after_binding (r : RecordingRow)
    (existing : Option SpectrogramRec) (stage : PipelineStage) (msg : String)
    (rid : ℕ) (h : ∀ e, existing = some e → e.status ≠ .completed) :
    (∃ s, (generate_spectrogram_task (some r) existing (.raisesAt stage msg)
        rid).final = some s ∧
      s.status = .failed ∧ s.errorMessage = some (truncate500 msg) ∧
      (truncate500 msg).length ≤ 500) ∧
    (generate_spectrogram_task (some r) existing (.raisesAt stage msg)
        rid).result = .raisedError msg := by
  have hlen : (truncate500 msg).length ≤ 500 := by
    show (msg.data.take 500).length ≤ 500
    rw [List.length_take]
    exact min_le_left _ _
  constructor
  · cases existing with
    | none => exact ⟨_, rfl, rfl, rfl, hlen⟩
    | some e =>
        have hne := h e rfl
        have hfi : generate_spectrogram_task (some r) (some e) (.raisesAt stage msg)
            rid = runPipeline rid (bindJob rid (some e)) (.raisesAt stage msg) := by
          simp [generate_spectrogram_task, hne]
        rw [hfi]
        exact ⟨_, rfl, rfl, rfl, hlen⟩
  · cases existing with
    | none => rfl
    | some e =>
        have hne := h e rfl
        simp [generate_spectrogram_task, hne, runPipeline]

/-- Witness for the amended C5 at a concrete failing pipeline. -/
theorem unhandled_error_persisted_after_binding_witness :
    (∃ s, (generate_spectrogram_task (some recordingSeven) none
        (.raisesAt .loadingAudio "decode failure") 7).final = some s ∧
      s.status = .failed ∧
      s.errorMessage = some (truncate500 "decode failure") ∧
      (truncate500 "decode failure").length ≤ 500) ∧
    (generate_spectrogram_task (some recordingSeven) none
        (.raisesAt .loadingAudio "decode failure") 7).result =
      .raisedError "decode failure" :=
  unhandled_error_persisted_after_binding recordingSeven none .loadingAudio
    "decode failure" 7 (by intro e he; cases he)

/-- Claim C9: every reachable job row in status COMPLETED records a width
inside [800, 3200] pixels (the duration-derived value is clamped) and the
fixed height 400; the legacy synchronous renderer clamps its width to the
same range for every duration. -/
theorem completed_job_dimensions :
    ∀ j, ReachableJob j → ∀ s, j = some s → s.status = .completed →
      ((∃ w : ℤ, s.width = some w ∧ 800 ≤ w ∧ w ≤ 3200) ∧
        s.height = some 400) ∧
      ∀ d : ℚ, 800 ≤ serviceWidth d ∧ serviceWidth d ≤ 3200 := by
  intro j h s hs hc
  exact ⟨(reachable_strongInv h s hs).2 hc, serviceWidth_bounds⟩

theorem lastIdxLe_enumFrom (c : ℚ) (xs : List ℚ) :
    ∀ n : ℕ,
      (((List.enumFrom n xs).filter (fun p => p.2 ≤ c)).map Prod.fst).getLast? =
        (lastSat (fun x => x ≤ c) xs).map (· + n) := by
  induction xs with
  | nil => intro n; rfl
  | cons x xs ih =>
      intro n
      show (((( n, x) :: List.enumFrom (n + 1) xs).filter
          (fun p => p.2 ≤ c)).map Prod.fst).getLast? = _
      rw [List.filter_cons]
      rcases hls : lastSat (fun x => x ≤ c) xs with _ | i
      · rcases hx : (decide (x ≤ c)) with _ | _
        · simp only [hx, Bool.false_eq_true, if_false]
          rw [ih (n + 1), hls]
          simp [lastSat, hls, hx]
        · simp only [hx, if_true]
          have h1 := ih (n + 1)
          rw [hls] at h1
          simp only [Option.map_none'] at h1
          rw [List.getLast?_eq_none_iff] at h1
          simp only [List.map_cons, h1]
          simp [lastSat, hls, hx]
      · rcases hx : (decide (x ≤ c)) with _ | _
        · simp only [hx, Bool.false_eq_true, if_false]
          rw [ih (n + 1), hls]
          simp [lastSat, hls, hx]
          omega
        · simp only [hx, if_true]
          have h1 := ih (n + 1)
          rw [hls] at h1
          simp only [List.map_cons, List.getLast?_cons, h1]
          simp [lastSat, hls, hx]
          omega

theorem lastIdxLe_eq_lastSat (xs : List ℚ) (c : ℚ) :
    lastIdxLe xs c = lastSat (fun x => x ≤ c) xs := by
  unfold lastIdxLe
  rw [show xs.enum = List.enumFrom 0 xs from rfl, lastIdxLe_enumFrom]
  rcases lastSat (fun x => x ≤ c) xs with _ | i <;> simp

theorem lastSat_eq_none_of (p : ℚ → Bool) (xs : List ℚ)
    (h : ∀ k (hk : k < xs.length), p (xs.get ⟨k, hk⟩) = false) :
    lastSat p xs = none := by
  induction xs with
  | nil => rfl
  | cons x xs ih =>
      show ((lastSat p xs).map (· + 1)).or (if p x then some 0 else none) = none
      rw [ih (fun k hk => h (k + 1) (by simpa using hk))]
      simpa using h 0 (by simp)

theorem lastSat_none_sat (p : ℚ → Bool) (xs : List ℚ)
    (h : lastSat p xs = none) :
    ∀ k (hk : k < xs.length), p (xs.get ⟨k, hk⟩) = false := by
  induction xs with
  | nil => intro k hk; simp at hk
  | cons x xs ih =>
      intro k hk
      rw [show lastSat p (x :: xs)
          = ((lastSat p xs).map (· + 1)).or (if p x then some 0 else none)
        from rfl] at h
      rcases hls : lastSat p xs with _ | i
      · rw [hls] at h
        simp only [Option.map_none', Option.none_or] at h
        rcases k with _ | k
        · show p x = false
          by_contra hc
          simp [eq_true_of_ne_false hc] at h
        · exact ih hls k (by simpa using hk)
      · rw [hls] at h; simp at h

theorem lastSat_eq_some_of (p : ℚ → Bool) (xs : List ℚ) (i : ℕ)
    (hi : i < xs.length) (hp : p (xs.get ⟨i, hi⟩) = true)
    (hafter : ∀ j (hj : j < xs.length), i < j → p (xs.get ⟨j, hj⟩) = false) :
    lastSat p xs = some i := by
  induction xs generalizing i with
  | nil => simp at hi
  | cons x xs ih =>
      show ((lastSat p xs).map (· + 1)).or (if p x then some 0 else none) = some i
      rcases i with _ | i
      · have hnone : lastSat p xs = none := by
          apply lastSat_eq_none_of
          intro k hk
          exact hafter (k + 1) (by simpa using hk) (by omega)
        rw [hnone]
        simpa using hp
      · have hsome : lastSat p xs = some i := by
          apply ih i (by simpa using hi) (by simpa using hp)
          intro j hj hij
          exact hafter (j + 1) (by simpa using hj) (by omega)
        rw [hsome]
        rfl

theorem lastSat_some_sat (p : ℚ → Bool) (xs : List ℚ) (i : ℕ)
    (h : lastSat p xs = some i) :
    ∃ hi : i < xs.length, p (xs.get ⟨i, hi⟩) = true := by
  induction xs generalizing i with
  | nil => simp [lastSat] at h
  | cons x xs ih =>
      rw [show lastSat p (x :: xs)
          = ((lastSat p xs).map (· + 1)).or (if p x then some 0 else none)
        from rfl] at h
      rcases hls : lastSat p xs with _ | i'
      · rw [hls] at h
        simp only [Option.map_none', Option.none_or] at h
        rcases hx : p x with _ | _
        · simp [hx] at h
        · simp only [hx, if_true, Option.some.injEq] at h
          subst h
          exact ⟨by simp, by simpa using hx⟩
      · rw [hls] at h
        simp only [Option.map_some', Option.or_some, Option.some.injEq] at h
        obtain ⟨hi', hp'⟩ := ih i' hls
        refine ⟨by simpa [← h] using Nat.succ_lt_succ hi', ?_⟩
        subst h
        simpa using hp'

theorem fftFreqVal_mono (sr nFft : ℕ) {k j : ℕ} (h : k ≤ j) :
    fftFreqVal sr nFft k ≤ fftFreqVal sr nFft j := by
  unfold fftFreqVal
  refine div_le_div_of_nonneg_right ?_ (Nat.cast_nonneg nFft)
  exact_mod_cast Nat.mul_le_mul_right sr h

/-- Every frequency retained by the clamp is at most the hard-coded 10 kHz
cutoff, for every sample rate and FFT size, and the clamp always succeeds. -/
theorem retained_le_cutoff (sr nFft : ℕ) :
    ∃ i l, maxFreqIdx sr nFft = some i ∧
      retainedFrequencies sr nFft = some l ∧ ∀ q ∈ l, q ≤ 10000 := by
  have hlen : (fftFrequencies sr nFft).length = nFft / 2 + 1 := by
    simp [fftFrequencies]
  have hget : ∀ k (hk : k < (fftFrequencies sr nFft).length),
      (fftFrequencies sr nFft).get ⟨k, hk⟩ = fftFreqVal sr nFft k := by
    intro k hk
    simp [fftFrequencies]
  obtain ⟨i, hi⟩ : ∃ i, lastSat (fun x => x ≤ (10000 : ℚ))
      (fftFrequencies sr nFft) = some i := by
    rcases hcase : lastSat (fun x => x ≤ (10000 : ℚ)) (fftFrequencies sr nFft)
      with _ | i
    · exfalso
      have h0 : (0 : ℕ) < (fftFrequencies sr nFft).length := by omega
      have := lastSat_none_sat _ _ hcase 0 h0
      rw [hget 0 h0] at this
      simp [fftFreqVal] at this
    · exact ⟨i, rfl⟩
  have hmi : maxFreqIdx sr nFft = some i := by
    rw [maxFreqIdx, lastIdxLe_eq_lastSat]; exact hi
  obtain ⟨hilt, hisat⟩ := lastSat_some_sat _ _ _ hi
  rw [hget i hilt] at hisat
  have hile : fftFreqVal sr nFft i ≤ 10000 := by simpa using hisat
  refine ⟨i, (fftFrequencies sr nFft).take i, hmi, ?_, ?_⟩
  · simp [retainedFrequencies, clampRows, hmi]
  · intro q hq
    rw [List.mem_iff_getElem] at hq
    obtain ⟨k, hk, hq⟩ := hq
    have hki : k < i := by
      have := List.length_take i (fftFrequencies sr nFft)
      omega
    have hkl : k < (fftFrequencies sr nFft).length := by
      have := List.length_take i (fftFrequencies sr nFft)
      omega
    have : q = fftFreqVal sr nFft k := by
      rw [← hq, List.getElem_take]
      exact hget k hkl
    rw [this]
    exact le_trans (fftFreqVal_mono sr nFft (le_of_lt hki)) hile

/-- Counterexample for C3: for sample rate 22050 Hz and the standard FFT size
2048 the clamp keeps bins 0 .. 927 (`max_freq_idx = 928`, the last bin at or
below the hard-coded 10 kHz cutoff), so every rendered frequency is at most
10000 Hz and the Nyquist frequency 11025 Hz is not on the rendered axis,
contradicting the claimed default clamp to `[0, sampleRate/2]`. -/
theorem frequency_clamp_counterexample :
    maxFreqIdx 22050 2048 = some 928 ∧
    (∃ l, retainedFrequencies 22050 2048 = some l ∧
      (∀ q ∈ l, q ≤ 10000) ∧ (11025 : ℚ) ∉ l) := by
  have hlen : (fftFrequencies 22050 2048).length = 1025 := by
    simp [fftFrequencies]
  have hget : ∀ k (hk : k < (fftFrequencies 22050 2048).length),
      (fftFrequencies 22050 2048).get ⟨k, hk⟩ = fftFreqVal 22050 2048 k := by
    intro k hk
    simp [fftFrequencies]
  have hmi : maxFreqIdx 22050 2048 = some 928 := by
    rw [maxFreqIdx, lastIdxLe_eq_lastSat]
    apply lastSat_eq_some_of _ _ 928 (by omega)
    · rw [hget 928 (by omega)]
      simp only [fftFreqVal]
      norm_num
    · intro j hj hij
      rw [hget j hj]
      simp only [fftFreqVal, decide_eq_false_iff_not, not_le]
      have h929 : (10000 : ℚ) < fftFreqVal 22050 2048 929 := by
        simp only [fftFreqVal]; norm_num
      calc (10000 : ℚ) < fftFreqVal 22050 2048 929 := h929
        _ ≤ fftFreqVal 22050 2048 j := fftFreqVal_mono _ _ (by omega)
  obtain ⟨i, l, hmi', hl, hle⟩ := retained_le_cutoff 22050 2048
  rw [hmi] at hmi'
  refine ⟨hmi, l, hl, hle, fun hmem => ?_⟩
  have := hle _ hmem
  norm_num at this

/-- Claim C3 as amended: the renderer truncates the frequency axis at a fixed
10 kHz cutoff (the rows kept are those strictly below the last FFT bin whose
center frequency is at most 10000 Hz), for every sample rate; there is no
`maxFrequency` parameter and no Nyquist default, so every retained frequency
is at most 10000 Hz. -/
theorem frequency_clamp_fixed_cutoff :
    ∀ sr nFft : ℕ, ∃ i l, maxFreqIdx sr nFft = some i ∧
      retainedFrequencies sr nFft = some l ∧ ∀ q ∈ l, q ≤ 10000 :=
  retained_le_cutoff

theorem matMap_constMat (f : ℚ → ℚ) (q : ℚ) (rows cols : ℕ) :
    matMap f (constMat q rows cols) = constMat (f q) rows cols := by
  simp [matMap, constMat, List.map_replicate]

theorem flatten_constMat (q : ℚ) (rows cols : ℕ) :
    (constMat q rows cols).flatten = List.replicate (rows * cols) q := by
  induction rows with
  | zero => simp [constMat]
  | succ r ih =>
      rw [constMat, List.replicate_succ, List.flatten_cons,
        show (r + 1) * cols = cols + r * cols by ring, List.replicate_add]
      exact congrArg (fun l => List.replicate cols q ++ l) ih

theorem foldl_replicate_zero (f : ℚ → ℚ → ℚ) (hf : f 0 0 = 0) (k : ℕ) :
    (List.replicate k (0 : ℚ)).foldl f 0 = 0 := by
  induction k with
  | zero => rfl
  | succ n ih => rw [List.replicate_succ, List.foldl_cons, hf]; exact ih

theorem matMax_constMat_zero (rows cols : ℕ) :
    matMax (constMat 0 rows cols) = 0 := by
  rw [matMax, flatten_constMat]
  rcases Nat.eq_zero_or_pos (rows * cols) with h | h
  · simp [h]
  · obtain ⟨k, hk⟩ := Nat.exists_eq_succ_of_ne_zero (Nat.pos_iff_ne_zero.mp h)
    rw [hk, List.replicate_succ]
    simpa using foldl_replicate_zero max (by simp) (k + 1)

theorem matMin_constMat_zero (rows cols : ℕ) :
    matMin (constMat 0 rows cols) = 0 := by
  rw [matMin, flatten_constMat]
  rcases Nat.eq_zero_or_pos (rows * cols) with h | h
  · simp [h]
  · obtain ⟨k, hk⟩ := Nat.exists_eq_succ_of_ne_zero (Nat.pos_iff_ne_zero.mp h)
    rw [hk, List.replicate_succ]
    simpa using foldl_replicate_zero min (by simp) (k + 1)

theorem stftMag_silence (msqrt : ℚ → ℚ) (kernelRe kernelIm : ℕ → ℕ → ℚ)
    (nFft hopLength rows cols : ℕ) (hsqrt : msqrt 0 = 0) :
    stftMag msqrt kernelRe kernelIm nFft hopLength rows cols (fun _ => 0) =
      constMat 0 rows cols := by
  unfold stftMag constMat
  rw [show (List.replicate rows (List.replicate cols (0 : ℚ)))
      = (List.range rows).map (fun _ => List.replicate cols (0 : ℚ)) by
    rw [List.map_const', List.length_range]]
  apply List.map_congr_left
  intro f _
  rw [show (List.replicate cols (0 : ℚ))
      = (List.range cols).map (fun _ => (0 : ℚ)) by
    rw [List.map_const', List.length_range]]
  apply List.map_congr_left
  intro t _
  simp [hsqrt]

theorem magMat_constMat_zero (rows cols : ℕ) :
    magMat (constMat 0 rows cols) = constMat 0 rows cols := by
  rw [magMat, matMap_constMat, abs_zero]

theorem dbSpec_constMat_zero (log10 : ℚ → ℚ) (rows cols : ℕ) :
    dbSpec log10 (constMat 0 rows cols) = constMat 0 rows cols := by
  rw [dbSpec, magMat_constMat_zero, matMax_constMat_zero, matMap_constMat,
    sub_self]

theorem ampToDb_constMat_zero (log10 : ℚ → ℚ) (rows cols : ℕ) :
    ampToDb log10 (constMat 0 rows cols) = constMat 0 rows cols := by
  rw [ampToDb, dbSpec_constMat_zero, matMax_constMat_zero, matMap_constMat,
    zero_sub, max_eq_left (by norm_num : (-80 : ℚ) ≤ 0)]

theorem shiftedMat_constMat_zero (rows cols : ℕ) :
    shiftedMat (constMat 0 rows cols) = constMat 0 rows cols := by
  rw [shiftedMat, matMin_constMat_zero, matMap_constMat, sub_zero]

theorem normalize255_constMat_zero (rows cols : ℕ) :
    normalize255 (constMat 0 rows cols) = constMat 0 rows cols := by
  rw [normalize255, shiftedMat_constMat_zero, matMax_constMat_zero]
  simp

/-- Claim C6: rendering an all-zero (silent) sample buffer produces a valid
image: the STFT magnitudes are all zero, `amplitude_to_db` yields the all-zero
decibel matrix whatever the value of `log10` on the `amin` floor, and the
min-max normalisation takes the guarded zero-range branch, skipping the
division and emitting the degenerate all-zero matrix — a total computation
with no division by zero and no NaN entries. -/
theorem silent_buffer_renders_all_zero (log10 msqrt : ℚ → ℚ)
    (kernelRe kernelIm : ℕ → ℕ → ℚ) (nFft hopLength rows cols : ℕ)
    (hsqrt : msqrt 0 = 0) :
    normalize255 (ampToDb log10
        (stftMag msqrt kernelRe kernelIm nFft hopLength rows cols (fun _ => 0)))
      = constMat 0 rows cols := by
  rw [stftMag_silence msqrt kernelRe kernelIm nFft hopLength rows cols hsqrt,
    ampToDb_constMat_zero, normalize255_constMat_zero]

/-- Witness for C6 at concrete dimensions and concrete parameter functions
(identity square root, identity logarithm, zero kernels). -/
theorem silent_buffer_renders_all_zero_witness :
    normalize255 (ampToDb (fun q => q)
        (stftMag (fun q => q) (fun _ _ => 0) (fun _ _ => 0) 4 2 2 3 (fun _ => 0)))
      = constMat 0 2 3 :=
  silent_buffer_renders_all_zero (fun q => q) (fun q => q) (fun _ _ => 0)
    (fun _ _ => 0) 4 2 2 3 rfl

/-- Claim C8: `upload_file` performs at most 3 attempts; an `S3Error` or any
non-connection exception on the first attempt propagates immediately with no
sleep and no client recreation; every sleep sequence is the exponential
backoff `2^0, 2^1, ...`; the client is recreated exactly once before every
retry; and every attempt that was followed by another one failed with a
transient connection error. -/
theorem upload_file_retry_policy (outcomes : ℕ → AttemptOutcome) :
    (upload_file outcomes).attempts ≤ 3 ∧
    (∀ m, outcomes 0 = .s3Error m →
      upload_file outcomes = ⟨1, [], 0, .raisedS3Error m⟩) ∧
    (∀ m, outcomes 0 = .otherError m →
      upload_file outcomes = ⟨1, [], 0, .raisedOtherError m⟩) ∧
    (upload_file outcomes).sleeps =
      (List.range ((upload_file outcomes).attempts - 1)).map (2 ^ ·) ∧
    (upload_file outcomes).reconnects = (upload_file outcomes).attempts - 1 ∧
    (∀ i, i + 1 < (upload_file outcomes).attempts →
      ∃ m, outcomes i = .connectionError m) := by
  rcases h0 : outcomes 0 with _ | m0 | m0 | m0
  case success =>
    have e : upload_file outcomes = ⟨1, [], 0, .ok⟩ := by
      simp only [upload_file, uploadFileGo, h0]
    rw [e]
    refine ⟨by norm_num, ?_, ?_, by simp, rfl, ?_⟩
    · intro m hm; cases hm
    · intro m hm; cases hm
    · intro i hi
      have hi1 : i + 1 < 1 := hi
      exact absurd hi1 (by omega)
  case s3Error =>
    have e : upload_file outcomes = ⟨1, [], 0, .raisedS3Error m0⟩ := by
      simp only [upload_file, uploadFileGo, h0]
    rw [e]
    refine ⟨by norm_num, ?_, ?_, by simp, rfl, ?_⟩
    · intro m hm; cases hm; rfl
    · intro m hm; cases hm
    · intro i hi
      have hi1 : i + 1 < 1 := hi
      exact absurd hi1 (by omega)
  case otherError =>
    have e : upload_file outcomes = ⟨1, [], 0, .raisedOtherError m0⟩ := by
      simp only [upload_file, uploadFileGo, h0]
    rw [e]
    refine ⟨by norm_num, ?_, ?_, by simp, rfl, ?_⟩
    · intro m hm; cases hm
    · intro m hm; cases hm; rfl
    · intro i hi
      have hi1 : i + 1 < 1 := hi
      exact absurd hi1 (by omega)
  case connectionError =>
    rcases h1 : outcomes 1 with _ | m1 | m1 | m1
    case success =>
      have e : upload_file outcomes = ⟨2, [1], 1, .ok⟩ := by
        simp only [upload_file, uploadFileGo, h0, h1]
        rfl
      rw [e]
      refine ⟨by norm_num, ?_, ?_, by simp [List.range_succ], rfl, ?_⟩
      · intro m hm; cases hm
      · intro m hm; cases hm
      · intro i hi
        have hi2 : i + 1 < 2 := hi
        have hz : i = 0 := by omega
        subst hz
        exact ⟨m0, h0⟩
    case s3Error =>
      have e : upload_file outcomes = ⟨2, [1], 1, .raisedS3Error m1⟩ := by
        simp only [upload_file, uploadFileGo, h0, h1]
        rfl
      rw [e]
      refine ⟨by norm_num, ?_, ?_, by simp [List.range_succ], rfl, ?_⟩
      · intro m hm; cases hm
      · intro m hm; cases hm
      · intro i hi
        have hi2 : i + 1 < 2 := hi
        have hz : i = 0 := by omega
        subst hz
        exact ⟨m0, h0⟩
    case otherError =>
      have e : upload_file outcomes = ⟨2, [1], 1, .raisedOtherError m1⟩ := by
        simp only [upload_file, uploadFileGo, h0, h1]
        rfl
      rw [e]
      refine ⟨by norm_num, ?_, ?_, by simp [List.range_succ], rfl, ?_⟩
      · intro m hm; cases hm
      · intro m hm; cases hm
      · intro i hi
        have hi2 : i + 1 < 2 := hi
        have hz : i = 0 := by omega
        subst hz
        exact ⟨m0, h0⟩
    case connectionError =>
      rcases h2 : outcomes 2 with _ | m2 | m2 | m2
      case success =>
        have e : upload_file outcomes = ⟨3, [1, 2], 2, .ok⟩ := by
          simp only [upload_file, uploadFileGo, h0, h1, h2]
          rfl
        rw [e]
        refine ⟨by norm_num, ?_, ?_, by simp [List.range_succ], rfl, ?_⟩
        · intro m hm; cases hm
        · intro m hm; cases hm
        · intro i hi
          have hi3 : i + 1 < 3 := hi
          rcases i with _ | _ | i
          · exact ⟨m0, h0⟩
          · exact ⟨m1, h1⟩
          · exact absurd hi3 (by omega)
      case connectionError =>
        have e : upload_file outcomes =
            ⟨3, [1, 2], 2, .raisedConnectionError m2⟩ := by
          simp only [upload_file, uploadFileGo, h0, h1, h2]
          rfl
        rw [e]
        refine ⟨by norm_num, ?_, ?_, by simp [List.range_succ], rfl, ?_⟩
        · intro m hm; cases hm
        · intro m hm; cases hm
        · intro i hi
          have hi3 : i + 1 < 3 := hi
          rcases i with _ | _ | i
          · exact ⟨m0, h0⟩
          · exact ⟨m1, h1⟩
          · exact absurd hi3 (by omega)
      case s3Error =>
        have e : upload_file outcomes = ⟨3, [1, 2], 2, .raisedS3Error m2⟩ := by
          simp only [upload_file, uploadFileGo, h0, h1, h2]
          rfl
        rw [e]
        refine ⟨by norm_num, ?_, ?_, by simp [List.range_succ], rfl, ?_⟩
        · intro m hm; cases hm
        · intro m hm; cases hm
        · intro i hi
          have hi3 : i + 1 < 3 := hi
          rcases i with _ | _ | i
          · exact ⟨m0, h0⟩
          · exact ⟨m1, h1⟩
          · exact absurd hi3 (by omega)
      case otherError =>
        have e : upload_file outcomes = ⟨3, [1, 2], 2, .raisedOtherError m2⟩ := by
          simp only [upload_file, uploadFileGo, h0, h1, h2]
          rfl
        rw [e]
        refine ⟨by norm_num, ?_, ?_, by simp [List.range_succ], rfl, ?_⟩
        · intro m hm; cases hm
        · intro m hm; cases hm
        · intro i hi
          have hi3 : i + 1 < 3 := hi
          rcases i with _ | _ | i
          · exact ⟨m0, h0⟩
          · exact ⟨m1, h1⟩
          · exact absurd hi3 (by omega)

/-- Witness for C8: two transient connection failures followed by a success
give three attempts, backoff sleeps of 1 s and 2 s and two client
recreations; a first-attempt `S3Error` propagates with a single attempt. -/
theorem upload_file_retry_policy_witness :
    upload_file (fun i => if i ≤ 1 then .connectionError "refused" else .success)
      = ⟨3, [1, 2], 2, .ok⟩ ∧
    upload_file (fun _ => .s3Error "SignatureDoesNotMatch")
      = ⟨1, [], 0, .raisedS3Error "SignatureDoesNotMatch"⟩ := by
  constructor
  · rfl
  · exact (upload_file_retry_policy (fun _ => .s3Error "SignatureDoesNotMatch")).2.1
      "SignatureDoesNotMatch" rfl

theorem listingKey_starts (md5hex : String → String)
    (serialize : ListingQuery → String) (q : ListingQuery) :
    "bsmarker:cache:recordings:".data <+:
      (recordingsListingKey md5hex serialize q).data := by
  show "bsmarker:cache:recordings:".data <+:
    ("bsmarker:cache:recordings:".data ++
      ((md5hex (serialize q)).data.take 16))
  exact List.prefix_append _ _

theorem cacheLookup_delete_pattern (c : Cache) (pat k : String)
    (h : pat.data <+: k.data) :
    cacheLookup (delete_pattern c pat) k = none := by
  unfold cacheLookup
  rw [Option.map_eq_none', List.find?_eq_none]
  intro kv hkv
  unfold delete_pattern at hkv
  rw [List.mem_filter] at hkv
  intro hk
  rw [decide_eq_true_iff] at hk
  have h2 := hkv.2
  rw [hk] at h2
  simp [h] at h2

theorem cacheLookup_filter_none (c : Cache) (p : String × String → Bool)
    (k : String) (h : cacheLookup c k = none) :
    cacheLookup (c.filter p) k = none := by
  unfold cacheLookup at h ⊢
  rw [Option.map_eq_none', List.find?_eq_none] at h ⊢
  intro kv hkv
  exact h kv (List.mem_of_mem_filter hkv)

/-- Claim C10: `invalidate_project_recordings` deletes every cached listing
page of every project, not only the given one — a listing key never exposes
its project id (it sits inside the MD5 hash), the deleted pattern is the
constant `"bsmarker:cache:recordings:*"`, and the result is literally
independent of the `project_id` argument. -/
theorem invalidate_project_deletes_every_project (md5hex : String → String)
    (serialize : ListingQuery → String) (pid : ℕ) (q : ListingQuery)
    (c : Cache) :
    cacheLookup (invalidate_project_recordings pid c)
      (recordingsListingKey md5hex serialize q) = none ∧
    ∀ pid' : ℕ, invalidate_project_recordings pid c
      = invalidate_project_recordings pid' c := by
  refine ⟨?_, fun _ => rfl⟩
  exact cacheLookup_delete_pattern c _ _ (listingKey_starts md5hex serialize q)

/-- Counterexample for C7: `bulk_delete_recordings` changes the project's
listing result set (the recording row disappears) but performs no cache
invalidation at all — the stale listing page and the stale detail entry of
the deleted recording both survive — and the job-completion commit leaves the
cache equally untouched. -/
theorem bulk_delete_leaves_stale_cache :
    (bulk_delete_recordings staleState 1 [5]).db.recordings = [] ∧
    (bulk_delete_recordings staleState 1 [5]).cache = staleCache ∧
    cacheLookup (bulk_delete_recordings staleState 1 [5]).cache
      "bsmarker:cache:recordings:0123456789abcdef" = some "stale page" ∧
    cacheLookup (bulk_delete_recordings staleState 1 [5]).cache
      "bsmarker:cache:recording:5" = some "stale detail" ∧
    task_completion_cache staleCache = staleCache := by
  refine ⟨?_, rfl, ?_, ?_, rfl⟩ <;> decide

/-- Claim C7 as amended: upload and single delete invalidate the project's
cached listing pages (every listing key, for any project, is gone
afterwards), and single delete also invalidates the per-recording detail
cache; bulk delete and spectrogram-job completion perform no cache
invalidation and leave the cache unchanged. -/
theorem mutation_cache_invalidation (md5hex : String → String)
    (serialize : ListingQuery → String) (st : AppState) (pid rid dpid : ℕ)
    (row : RecordingRow) (q : ListingQuery) (rids : List ℕ) :
    cacheLookup (upload_recording st pid row).cache
      (recordingsListingKey md5hex serialize q) = none ∧
    cacheLookup (delete_recording st rid dpid).cache
      (recordingsListingKey md5hex serialize q) = none ∧
    cacheLookup (delete_recording st rid dpid).cache
      (recordingDetailKey rid) = none ∧
    (bulk_delete_recordings st pid rids).cache = st.cache ∧
    task_completion_cache st.cache = st.cache := by
  refine ⟨?_, ?_, ?_, by rfl, rfl⟩
  · exact cacheLookup_delete_pattern st.cache _ _
      (listingKey_starts md5hex serialize q)
  · exact cacheLookup_filter_none _ _ _
      (cacheLookup_delete_pattern st.cache _ _
        (listingKey_starts md5hex serialize q))
  · unfold cacheLookup
    rw [Option.map_eq_none', List.find?_eq_none]
    intro kv hkv
    unfold delete_recording invalidate_recording at hkv
    rw [List.mem_filter] at hkv
    intro hk
    rw [decide_eq_true_iff] at hk
    have h2 := hkv.2
    simp [hk] at h2

/-- Witness for C9: the row produced by a successful run on a 2-second,
44100 Hz recording is COMPLETED with in-range dimensions. -/
theorem completed_job_dimensions_witness :
    ∃ s, (generate_spectrogram_task (some recordingSeven) none
        (.ok 88200 44100 5) 7).final = some s ∧
      ((∃ w : ℤ, s.width = some w ∧ 800 ≤ w ∧ w ≤ 3200) ∧
        s.height = some 400) ∧
      ∀ d : ℚ, 800 ≤ serviceWidth d ∧ serviceWidth d ≤ 3200 := by
  refine ⟨_, rfl, ?_⟩
  exact completed_job_dimensions _
    (ReachableJob.step (some recordingSeven) (.ok 88200 44100 5) 7 none
      ReachableJob.init) _ rfl (by decide)

end BSMarker
